import Mathlib

/-!
Verification of the IMDb TV-series ratings service (`api/index.py`,
`tv_series_ratings.py`) against its natural-language specification.

The Python code is shallowly embedded: each scraping function becomes a pure
Lean function over a structured model of the fetched markup, network calls
become an explicit `World` of fetch outcomes, Python exceptions become
`Except`, and the module-level rate-limit table becomes explicit state
passing.  Timestamps (Python `time.time()` floats) are modelled as rationals.
-/

/-! ### Character/string scanners modelling the `re` patterns of the source -/

/-- Models Python regex `\w` (word character), ASCII range. -/
def isWordChar (c : Char) : Bool := c.isAlphanum || c = '_'

/-- Decimal value of a digit string, as used by Python `int` on a `\d+` group. -/
def digitsToNat (ds : List Char) : Nat :=
  ds.foldl (fun n c => 10 * n + (c.toNat - Char.toNat '0')) 0

/-- Attempt to match regex `tt\d+` at the head of the character list,
returning the greedy digit group on success. -/
def ttAt : List Char → Option (List Char)
  | 't' :: 't' :: rest =>
      let ds := rest.takeWhile Char.isDigit
      if ds = [] then none else some ds
  | _ => none

/-- Models `re.search(r"(tt\d+)", s)`: leftmost match, returning the whole
matched text (`"tt"` plus the greedy digit run). -/
def ttSearch : List Char → Option String
  | [] => none
  | c :: rest =>
      match ttAt (c :: rest) with
      | some ds => some (String.mk ('t' :: 't' :: ds))
      | none => ttSearch rest

/-- Attempt to match regex `/title/(tt\d+)` at the head of the list. -/
def titleTTAt : List Char → Bool
  | '/' :: 't' :: 'i' :: 't' :: 'l' :: 'e' :: '/' :: 't' :: 't' :: d :: _ => d.isDigit
  | _ => false

/-- Models `re.search(r"/title/(tt\d+)", href) is not None`, the
`find_all` href filter of `search_series`. -/
def titleHrefMatch : List Char → Bool
  | [] => false
  | c :: rest => titleTTAt (c :: rest) || titleHrefMatch rest

/-- Attempt to match regex `season=(\d+)` at the head of the list,
returning the digit group's integer value. -/
def seasonAt : List Char → Option Nat
  | 's' :: 'e' :: 'a' :: 's' :: 'o' :: 'n' :: '=' :: rest =>
      let ds := rest.takeWhile Char.isDigit
      if ds = [] then none else some (digitsToNat ds)
  | _ => none

/-- Models `re.search(r"season=(\d+)", href)` with `int(m.group(1))`:
leftmost match, integer value of the digit group. -/
def seasonSearch : List Char → Option Nat
  | [] => none
  | c :: rest =>
      match seasonAt (c :: rest) with
      | some n => some n
      | none => seasonSearch rest

/-- Attempt to match regex `\.E0\b` at the head of the list: literal `.E0`
followed by a word boundary (end of string or a non-word character). -/
def e0At : List Char → Bool
  | '.' :: 'E' :: '0' :: rest =>
      match rest with
      | [] => true
      | c :: _ => !(isWordChar c)
  | _ => false

/-- Models `re.search(r"\.E0\b", text) is not None`, the specials filter of
`get_episode_ratings`. -/
def e0Search : List Char → Bool
  | [] => false
  | c :: rest => e0At (c :: rest) || e0Search rest

/-- Models Python `str.isdigit()` (ASCII range): nonempty and all digits. -/
def pyIsDigit (s : String) : Bool := !s.data.isEmpty && s.data.all Char.isDigit

/-- Models Python `float()` on the plain decimal forms produced by the rating
widget: optional sign, then `d+`, `d+.d*` or `.d+`; the decimal string
`±ip.fp` denotes the exact rational `±(ip·10^k + fp) / 10^k`.  Exponent,
infinity, nan and underscore forms of the builtin are not produced by the
page and are not modelled.  `none` models `ValueError`. -/
def pyFloat? (s : String) : Option ℚ :=
  let step : Int → List Char → Option ℚ := fun sgn cs =>
    let ip := cs.takeWhile Char.isDigit
    let rest := cs.drop ip.length
    match rest with
    | [] => if ip = [] then none else some (mkRat (sgn * digitsToNat ip) 1)
    | '.' :: r =>
        let fp := r.takeWhile Char.isDigit
        let rest2 := r.drop fp.length
        if rest2 = [] then
          if ip = [] && fp = [] then none
          else
            some (mkRat (sgn * (digitsToNat ip * 10 ^ fp.length + digitsToNat fp))
              (10 ^ fp.length))
        else none
    | _ => none
  match s.data with
  | [] => none
  | '+' :: cs => step 1 cs
  | '-' :: cs => step (-1) cs
  | cs => step 1 cs

/-! ### Markup model

`BeautifulSoup` queries are modelled at the granularity the source consumes:
a page exposes its `<a href=...>` elements (href attribute plus
`get_text(strip=True)`) and its `article.episode-item-wrapper` elements
(the optional `h4` text and the optional rating-span text). -/

structure Anchor where
  href : String
  text : String
deriving DecidableEq

structure Article where
  h4 : Option String
  ratingSpan : Option String
deriving DecidableEq

structure Page where
  anchors : List Anchor
  articles : List Article
deriving DecidableEq

/-- Python exceptions reaching `get_scores`: `ValueError` (with its message)
versus every other exception class. -/
inductive PyExc where
  | valueError (msg : String)
  | other (msg : String)
deriving DecidableEq

/-- Outcomes of the outbound network calls.  A transport failure
(`requests` error or `raise_for_status`) carries a diagnostic string; it is
never a `ValueError`. -/
structure World where
  findPage : String → Except String Page
  episodesPage : String → Except String Page
  seasonPage : String → Nat → Except String Page

/-- Lift a fetch outcome into the exception model: transport failures raise
non-`ValueError` exceptions. -/
def liftFetch : Except String Page → Except PyExc Page
  | .ok p => .ok p
  | .error m => .error (.other m)

/-- Message raised by `search_series` when no link qualifies. -/
def notFoundMsg (title : String) : String :=
  "No TV series found for \x27" ++ title ++ "\x27"

/-- Loop body of `search_series`: scan the anchors whose href matches
`/title/(tt\d+)` and return the first with nonempty stripped text; the id is
re-extracted from the href with `re.search(r"(tt\d+)")`. -/
def seriesFromAnchors (title : String) : List Anchor → Except PyExc (String × String)
  | [] => .error (.valueError (notFoundMsg title))
  | a :: rest =>
      if titleHrefMatch a.href.data then
        if a.text ≠ "" then
          match ttSearch a.href.data with
          | some id => .ok (id, a.text)
          | none => .error (.other "AttributeError")
        else seriesFromAnchors title rest
      else seriesFromAnchors title rest

/-- Embedding of `search_series`: fetch the find page, then scan its links;
a transport failure propagates as the raised exception. -/
def search_series (w : World) (title : String) : Except PyExc (String × String) :=
  match liftFetch (w.findPage title) with
  | .error e => .error e
  | .ok p => seriesFromAnchors title p.anchors

/-- Loop body of `get_season_numbers` for one link: the `season=(\d+)`
value of the href, kept only when the visible text `isdigit()`. -/
def seasonNumberOf (a : Anchor) : Option Nat :=
  match seasonSearch a.href.data with
  | some n => if pyIsDigit a.text then some n else none
  | none => none

/-- Pure core of `get_season_numbers` (continued): `sorted(seasons)` where
`seasons` is the set of collected numbers, i.e. the distinct collected
values in ascending order. -/
def seasonNumbersOf (ancs : List Anchor) : List Nat :=
  List.insertionSort (· ≤ ·) (ancs.filterMap seasonNumberOf).dedup

/-- Embedding of `get_season_numbers`. -/
def get_season_numbers (w : World) (imdb_id : String) : Except PyExc (List Nat) :=
  match liftFetch (w.episodesPage imdb_id) with
  | .error e => .error e
  | .ok p => .ok (seasonNumbersOf p.anchors)

/-- Loop body of `get_episode_ratings` for one episode article: skip
specials (`\.E0\b` in the h4 text), else parse the rating span and keep the
value only when it lies in `(0, 10]`; a parse failure contributes nothing. -/
def episodeContribution (art : Article) : Option ℚ :=
  if (match art.h4 with
      | some h => e0Search h.data
      | none => false) then none
  else
    match art.ratingSpan with
    | none => none
    | some t =>
        match pyFloat? t with
        | none => none
        | some v => if 0 < v ∧ v ≤ 10 then some v else none

/-- Pure core of `get_episode_ratings`: the append loop over the episode
articles in document order. -/
def episodeRatingsOf : List Article → List ℚ
  | [] => []
  | art :: rest =>
      match episodeContribution art with
      | some v => v :: episodeRatingsOf rest
      | none => episodeRatingsOf rest

/-- Embedding of `get_episode_ratings`. -/
def get_episode_ratings (w : World) (imdb_id : String) (season : Nat) :
    Except PyExc (List ℚ) :=
  match liftFetch (w.seasonPage imdb_id season) with
  | .error e => .error e
  | .ok p => .ok (episodeRatingsOf p.articles)

/-! ### Aggregator (`get_scores` of `api/index.py`) -/

/-- Shape of the JSON-serializable dict returned by `get_scores`; absent
keys are `none`. -/
structure ScoresResult where
  success : Bool
  title : Option String
  imdb_id : Option String
  seasons : Option (List (List ℚ))
  error : Option String
deriving DecidableEq

/-- Season loop of `get_scores`: fetch each season's ratings in order,
appending the list to the accumulator only when its length exceeds 1; a
fetch exception propagates out of the loop.  The `time.sleep(0.3)` pacing
has no observable effect in the embedding. -/
def collectScores (w : World) (imdb_id : String) :
    List Nat → List (List ℚ) → Except PyExc (List (List ℚ))
  | [], acc => .ok acc
  | s :: rest, acc =>
      match get_episode_ratings w imdb_id s with
      | .error e => .error e
      | .ok ratings =>
          collectScores w imdb_id rest
            (if ratings.length > 1 then acc ++ [ratings] else acc)

/-- Body of the `try` block of `get_scores`: any raised exception is the
`.error` case. -/
def runScores (w : World) (title : String) : Except PyExc ScoresResult :=
  match search_series w title with
  | .error e => .error e
  | .ok (imdb_id, display_title) =>
      match get_season_numbers w imdb_id with
      | .error e => .error e
      | .ok seasons =>
          match collectScores w imdb_id seasons [] with
          | .error e => .error e
          | .ok all_scores =>
              .ok ⟨true, some display_title, some imdb_id, some all_scores, none⟩

/-- Embedding of `get_scores`: the `try`/`except ValueError`/`except
Exception` structure. -/
def get_scores (w : World) (title : String) : ScoresResult :=
  match runScores w title with
  | .ok r => r
  | .error (.valueError m) => ⟨false, none, none, none, some m⟩
  | .error (.other _) =>
      ⟨false, none, none, none, some "An error occurred while fetching data"⟩

/-! ### Rate limiter

`_request_counts` is a `defaultdict(list)` keyed by client identity; it is
modelled as a total function from identities to timestamp lists, initially
empty everywhere. -/

def RATE_LIMIT_REQUESTS : Nat := 10

def RATE_LIMIT_WINDOW_SECONDS : ℚ := 60

/-- State of the module-level `_request_counts` table. -/
def RLState : Type := String → List ℚ

/-- Initial (empty) table: `defaultdict(list)`. -/
def initRL : RLState := fun _ => []

/-- Pruning step: keep the timestamps `t` with `t > now - window`. -/
def pruneWindow (now : ℚ) (ts : List ℚ) : List ℚ :=
  ts.filter (fun t => decide (now - RATE_LIMIT_WINDOW_SECONDS < t))

/-- Embedding of `_is_rate_limited`: prune the client's entries, reject when
at least `RATE_LIMIT_REQUESTS` remain, otherwise record `now` and admit.
Returns the limited flag together with the updated table. -/
def is_rate_limited (st : RLState) (ip : String) (now : ℚ) : Bool × RLState :=
  let recent := pruneWindow now (st ip)
  if RATE_LIMIT_REQUESTS ≤ recent.length then
    (true, fun k => if k = ip then recent else st k)
  else
    (false, fun k => if k = ip then recent ++ [now] else st k)

/-- Run a sequence of `_is_rate_limited` calls for one client at the given
times, collecting the limited flags. -/
def runCalls (st : RLState) (ip : String) : List ℚ → List Bool × RLState
  | [] => ([], st)
  | t :: ts =>
      let r := is_rate_limited st ip t
      let rest := runCalls r.2 ip ts
      (r.1 :: rest.1, rest.2)

/-! ### HTTP handler (`handler.do_GET`) -/

/-- Observable response of `do_GET`: the early 429 return, or a 200 JSON
body with its cacheability (`s-maxage` versus `no-store`). -/
inductive HttpResponse where
  | rateLimited
  | apiResponse (body : ScoresResult) (cacheable : Bool)
deriving DecidableEq

/-- Body sent when the `title` query parameter is missing or empty. -/
def missingTitleBody : ScoresResult :=
  ⟨false, none, none, none, some "Missing \x27title\x27 parameter"⟩

/-- Embedding of `handler.do_GET`: the rate-limit check (which records a
timestamp on admission) runs before the `title` parameter is examined; a
missing `title` is the empty string (`params.get("title", [""])[0]`). -/
def do_GET (st : RLState) (ip : String) (now : ℚ) (title : String) (w : World) :
    HttpResponse × RLState :=
  let r := is_rate_limited st ip now
  if r.1 then (.rateLimited, r.2)
  else if title = "" then (.apiResponse missingTitleBody false, r.2)
  else
    let resp := get_scores w title
    (.apiResponse resp resp.success, r.2)

/-! ### Helper lemmas about `episodeRatingsOf` -/

lemma episodeRatingsOf_cons (a : Article) (l : List Article) :
    episodeRatingsOf (a :: l) =
      match episodeContribution a with
      | some v => v :: episodeRatingsOf l
      | none => episodeRatingsOf l := rfl

lemma episodeRatingsOf_append (l₁ l₂ : List Article) :
    episodeRatingsOf (l₁ ++ l₂) = episodeRatingsOf l₁ ++ episodeRatingsOf l₂ := by
  induction l₁ with
  | nil => rfl
  | cons a l ih =>
      rw [List.cons_append, episodeRatingsOf_cons, episodeRatingsOf_cons]
      cases episodeContribution a <;> simp [ih]

lemma episodeContribution_range {a : Article} {v : ℚ}
    (h : episodeContribution a = some v) : 0 < v ∧ v ≤ 10 := by
  unfold episodeContribution at h
  split at h
  · exact absurd h (by simp)
  · split at h
    · exact absurd h (by simp)
    · split at h
      · exact absurd h (by simp)
      · split at h
        · next hrange => cases h; exact hrange
        · exact absurd h (by simp)

lemma mem_episodeRatingsOf {arts : List Article} {v : ℚ}
    (h : v ∈ episodeRatingsOf arts) : ∃ a ∈ arts, episodeContribution a = some v := by
  induction arts with
  | nil => cases h
  | cons a l ih =>
      rw [episodeRatingsOf_cons] at h
      revert h
      cases hc : episodeContribution a with
      | some u =>
          intro h
          rcases List.mem_cons.mp h with h | h
          · exact ⟨a, List.mem_cons_self a l, h ▸ hc⟩
          · obtain ⟨b, hb, hbc⟩ := ih h
            exact ⟨b, List.mem_cons_of_mem a hb, hbc⟩
      | none =>
          intro h
          obtain ⟨b, hb, hbc⟩ := ih h
          exact ⟨b, List.mem_cons_of_mem a hb, hbc⟩

lemma episodeContribution_special {a : Article} {h : String}
    (hh : a.h4 = some h) (he : e0Search h.data = true) :
    episodeContribution a = none := by
  unfold episodeContribution
  rw [hh]
  simp [he]

/-- C4: `fetchRatings` excludes any episode entry whose header matches the
zero-index special marker regardless of rating; among the rest it appends a
parsed rating exactly when it lies in `(0, 10]`, so `0.0` and values above
`10.0` are excluded while exactly `10.0` is included; an entry whose rating
text fails numeric parsing is dropped without aborting the scan. -/
theorem fetchRatings_filter_correct (arts pre post : List Article) (a : Article)
    (h t : String) (v : ℚ) :
    (∀ r ∈ episodeRatingsOf arts, 0 < r ∧ r ≤ 10) ∧
    (a.h4 = some h → e0Search h.data = true →
      episodeRatingsOf (pre ++ a :: post) = episodeRatingsOf (pre ++ post)) ∧
    ((match a.h4 with | some s => e0Search s.data | none => false) = false →
      a.ratingSpan = some t → pyFloat? t = some v →
      episodeRatingsOf (a :: arts) =
        if 0 < v ∧ v ≤ 10 then v :: episodeRatingsOf arts else episodeRatingsOf arts) ∧
    ((match a.h4 with | some s => e0Search s.data | none => false) = false →
      a.ratingSpan = some t → pyFloat? t = none →
      episodeRatingsOf (a :: arts) = episodeRatingsOf arts) ∧
    episodeRatingsOf [⟨none, some "10.0"⟩] = [10] ∧
    episodeRatingsOf [⟨none, some "0.0"⟩] = [] ∧
    episodeRatingsOf [⟨none, some "10.1"⟩] = [] ∧
    episodeRatingsOf [⟨some "S1.E0 Special", some "9.9"⟩] = [] ∧
    episodeRatingsOf [⟨none, some "oops"⟩, ⟨none, some "8.0"⟩] = [8] := by
  refine ⟨?_, ?_, ?_, ?_, by decide, by decide, by decide, by decide, by decide⟩
  · intro r hr
    obtain ⟨b, _, hbc⟩ := mem_episodeRatingsOf hr
    exact episodeContribution_range hbc
  · intro hh he
    rw [episodeRatingsOf_append, episodeRatingsOf_append, episodeRatingsOf_cons,
      episodeContribution_special hh he]
  · intro hns hspan hparse
    rw [episodeRatingsOf_cons]
    unfold episodeContribution
    rw [hns, hspan]
    by_cases hv : 0 < v ∧ v ≤ 10 <;> simp [hparse, hv]
  · intro hns hspan hparse
    rw [episodeRatingsOf_cons]
    unfold episodeContribution
    rw [hns, hspan]
    simp [hparse]

/-- Witness for `fetchRatings_filter_correct`: a special (zero-index) entry
with a valid rating contributes nothing, at a concrete fixture. -/
theorem fetchRatings_filter_correct_witness :
    episodeRatingsOf [⟨none, some "8"⟩, ⟨some "S1.E0 Pilot", some "9.9"⟩] =
      episodeRatingsOf [⟨none, some "8"⟩] :=
  (fetchRatings_filter_correct [] [⟨none, some "8"⟩] []
      ⟨some "S1.E0 Pilot", some "9.9"⟩ "S1.E0 Pilot" "" 0).2.1 rfl (by decide)

/-! ### Helper lemmas about `seasonNumbersOf` -/

lemma mem_seasonNumbersOf {ancs : List Anchor} {n : Nat} :
    n ∈ seasonNumbersOf ancs ↔ ∃ a ∈ ancs, seasonNumberOf a = some n := by
  unfold seasonNumbersOf
  rw [(List.perm_insertionSort _ _).mem_iff, List.mem_dedup, List.mem_filterMap]

lemma seasonNumbersOf_nodup (ancs : List Anchor) : (seasonNumbersOf ancs).Nodup :=
  ((List.perm_insertionSort _ _).nodup_iff).mpr (List.nodup_dedup _)

/-- C5: `listSeasons` returns a strictly ascending, duplicate-free list; a
link whose visible text is not purely numeric contributes nothing wherever
it occurs; an input with no qualifying link yields `[]`, not an error. -/
theorem listSeasons_sorted_dedup (ancs pre post : List Anchor) (a : Anchor) :
    (seasonNumbersOf ancs).Sorted (· < ·) ∧
    (seasonNumbersOf ancs).Nodup ∧
    (pyIsDigit a.text = false →
      seasonNumbersOf (pre ++ a :: post) = seasonNumbersOf (pre ++ post)) ∧
    ((∀ x ∈ ancs, seasonSearch x.href.data = none ∨ pyIsDigit x.text = false) →
      seasonNumbersOf ancs = []) := by
  refine ⟨?_, seasonNumbersOf_nodup ancs, ?_, ?_⟩
  · exact (List.sorted_insertionSort _ _).lt_of_le (seasonNumbersOf_nodup ancs)
  · intro hnum
    unfold seasonNumbersOf
    have hnone : seasonNumberOf a = none := by
      unfold seasonNumberOf
      cases hs : seasonSearch a.href.data <;> simp [hnum]
    simp [List.filterMap_append, hnone]
  · intro hall
    unfold seasonNumbersOf
    have hnil : ancs.filterMap seasonNumberOf = [] := by
      rw [List.filterMap_eq_nil_iff]
      intro x hx
      unfold seasonNumberOf
      rcases hall x hx with h | h
      · simp [h]
      · cases hs : seasonSearch x.href.data <;> simp [h]
    rw [hnil]
    rfl

/-- Witness for `listSeasons_sorted_dedup`: the navigational "Seasons" label
link contributes nothing at a concrete fixture. -/
theorem listSeasons_sorted_dedup_witness :
    seasonNumbersOf [⟨"?season=1", "1"⟩, ⟨"?season=2", "Seasons"⟩] =
      seasonNumbersOf [⟨"?season=1", "1"⟩] :=
  (listSeasons_sorted_dedup [] [⟨"?season=1", "1"⟩] []
      ⟨"?season=2", "Seasons"⟩).2.2.1 (by decide)

/-- C7 counterexample: a season link encoding `season=0` with numeric
visible text `"0"` puts `0`, which is not positive, into the output, so the
claim that every element is strictly positive fails on this input. -/
theorem listSeasons_positive_cex :
    ¬ (∀ n ∈ seasonNumbersOf [⟨"?season=0", "0"⟩], 0 < n) := by decide

/-- C7 (amended): every element of `listSeasons` is a natural number, and
it is strictly positive whenever no season link encodes the number `0`
(the code itself does not exclude an encoded `season=0`). -/
theorem listSeasons_positive_of_nonzero_links (ancs : List Anchor)
    (h : ∀ a ∈ ancs, seasonSearch a.href.data ≠ some 0) :
    ∀ n ∈ seasonNumbersOf ancs, 0 < n := by
  intro n hn
  obtain ⟨a, ha, hna⟩ := mem_seasonNumbersOf.mp hn
  unfold seasonNumberOf at hna
  cases hs : seasonSearch a.href.data with
  | none => rw [hs] at hna; cases hna
  | some m =>
      rw [hs] at hna
      by_cases hd : pyIsDigit a.text
      · simp only [hd, if_true] at hna
        cases hna
        exact Nat.pos_of_ne_zero fun h0 => h a ha (h0 ▸ hs)
      · simp [hd] at hna

/-- Witness for `listSeasons_positive_of_nonzero_links` at a concrete
fixture with a single `season=2` link. -/
theorem listSeasons_positive_witness :
    (2 : Nat) ∈ seasonNumbersOf [⟨"?season=2", "2"⟩] ∧ 0 < 2 :=
  ⟨by decide,
    listSeasons_positive_of_nonzero_links [⟨"?season=2", "2"⟩] (by decide) 2 (by decide)⟩

/-! ### Helper lemmas about `ttSearch` and `seriesFromAnchors` -/

lemma ttSearch_cons_isSome {l : List Char} (c : Char) (h : (ttSearch l).isSome) :
    (ttSearch (c :: l)).isSome := by
  simp only [ttSearch]
  cases hat : ttAt (c :: l) <;> simp [h]

lemma ttSearch_isSome_of_titleTTAt (l : List Char) (h : titleTTAt l = true) :
    (ttSearch l).isSome := by
  unfold titleTTAt at h
  split at h
  · next d tail =>
      have hat : ttAt ('t' :: 't' :: d :: tail) = some (d :: tail.takeWhile Char.isDigit) := by
        simp [ttAt, List.takeWhile_cons, h]
      show (ttSearch ('t' :: 't' :: d :: tail)).isSome
      simp only [ttSearch, hat, Option.isSome_some]
  · exact absurd h (by simp)

lemma ttSearch_isSome_of_titleHrefMatch :
    ∀ l : List Char, titleHrefMatch l = true → (ttSearch l).isSome := by
  intro l
  induction l with
  | nil => intro h; cases h
  | cons c rest ih =>
      intro h
      simp only [titleHrefMatch, Bool.or_eq_true] at h
      rcases h with h1 | h2
      · exact ttSearch_isSome_of_titleTTAt _ h1
      · exact ttSearch_cons_isSome c (ih h2)

/-- C6: `resolve` returns the identifier and visible text of the first link
(in document order) whose target matches the series pattern and whose text
is nonempty, and fails with `NotFound` exactly when no such link exists. -/
theorem resolve_first_match (ancs pre post : List Anchor) (a : Anchor) (title : String) :
    ((∀ x ∈ pre, titleHrefMatch x.href.data = false ∨ x.text = "") →
      titleHrefMatch a.href.data = true → a.text ≠ "" →
      ∃ id, ttSearch a.href.data = some id ∧
        seriesFromAnchors title (pre ++ a :: post) = .ok (id, a.text)) ∧
    ((∀ x ∈ ancs, titleHrefMatch x.href.data = false ∨ x.text = "") →
      seriesFromAnchors title ancs = .error (.valueError (notFoundMsg title))) := by
  constructor
  · intro hpre hmatch htext
    obtain ⟨id, hid⟩ :=
      Option.isSome_iff_exists.mp (ttSearch_isSome_of_titleHrefMatch _ hmatch)
    refine ⟨id, hid, ?_⟩
    induction pre with
    | nil =>
        simp only [List.nil_append, seriesFromAnchors]
        rw [if_pos hmatch, if_pos htext, hid]
    | cons x pre' ih =>
        have hx := hpre x (List.mem_cons_self x pre')
        have hrest : ∀ y ∈ pre', titleHrefMatch y.href.data = false ∨ y.text = "" :=
          fun y hy => hpre y (List.mem_cons_of_mem x hy)
        simp only [List.cons_append, seriesFromAnchors]
        rcases hx with hx | hx
        · rw [hx]
          simp only [Bool.false_eq_true, if_false]
          exact ih hrest
        · by_cases hm : titleHrefMatch x.href.data = true
          · rw [if_pos hm, if_neg (by simp [hx])]
            exact ih hrest
          · rw [if_neg hm]
            exact ih hrest
  · intro hall
    induction ancs with
    | nil => rfl
    | cons x rest ih =>
        have hx := hall x (List.mem_cons_self x rest)
        have hrest : ∀ y ∈ rest, titleHrefMatch y.href.data = false ∨ y.text = "" :=
          fun y hy => hall y (List.mem_cons_of_mem x hy)
        simp only [seriesFromAnchors]
        rcases hx with hx | hx
        · rw [hx]
          simp only [Bool.false_eq_true, if_false]
          exact ih hrest
        · by_cases hm : titleHrefMatch x.href.data = true
          · rw [if_pos hm, if_neg (by simp [hx])]
            exact ih hrest
          · rw [if_neg hm]
            exact ih hrest

/-- Witness for `resolve_first_match`: a fixture with no qualifying link
yields the `NotFound` error with the title interpolated. -/
theorem resolve_first_match_witness :
    seriesFromAnchors "Nonexistent" [⟨"/chart/top/", "Top"⟩, ⟨"/title/tt7/", ""⟩] =
      .error (.valueError (notFoundMsg "Nonexistent")) :=
  (resolve_first_match [⟨"/chart/top/", "Top"⟩, ⟨"/title/tt7/", ""⟩] [] []
      ⟨"", ""⟩ "Nonexistent").2 (by decide)

/-! ### Helper lemmas about the aggregator's exception flow -/

lemma seriesFromAnchors_valueError {title m : String} :
    ∀ {l : List Anchor}, seriesFromAnchors title l = .error (.valueError m) →
      m = notFoundMsg title := by
  intro l
  induction l with
  | nil =>
      intro h
      simp only [seriesFromAnchors] at h
      injection h with h1
      injection h1 with h2
      exact h2.symm
  | cons a rest ih =>
      intro h
      simp only [seriesFromAnchors] at h
      by_cases hm : titleHrefMatch a.href.data = true
      · rw [if_pos hm] at h
        by_cases ht : a.text ≠ ""
        · rw [if_pos ht] at h
          cases hts : ttSearch a.href.data <;> rw [hts] at h
          · injection h with h1
            injection h1
          · cases h
        · rw [if_neg ht] at h
          exact ih h
      · rw [if_neg hm] at h
        exact ih h

lemma search_series_error {w : World} {title : String} {e : PyExc}
    (h : search_series w title = .error e) :
    e = .valueError (notFoundMsg title) ∨ ∃ m, e = .other m := by
  unfold search_series at h
  cases hf : w.findPage title with
  | error m =>
      rw [hf] at h
      simp only [liftFetch] at h
      injection h with h1
      exact Or.inr ⟨m, h1.symm⟩
  | ok p =>
      rw [hf] at h
      simp only [liftFetch] at h
      cases e with
      | valueError m => exact Or.inl (by rw [seriesFromAnchors_valueError h])
      | other m => exact Or.inr ⟨m, rfl⟩

lemma get_season_numbers_error {w : World} {imdb_id : String} {e : PyExc}
    (h : get_season_numbers w imdb_id = .error e) : ∃ m, e = .other m := by
  unfold get_season_numbers at h
  cases hf : w.episodesPage imdb_id with
  | error m =>
      rw [hf] at h
      simp only [liftFetch] at h
      injection h with h1
      exact ⟨m, h1.symm⟩
  | ok p =>
      rw [hf] at h
      simp only [liftFetch] at h
      cases h

lemma get_episode_ratings_error {w : World} {imdb_id : String} {s : Nat} {e : PyExc}
    (h : get_episode_ratings w imdb_id s = .error e) : ∃ m, e = .other m := by
  unfold get_episode_ratings at h
  cases hf : w.seasonPage imdb_id s with
  | error m =>
      rw [hf] at h
      simp only [liftFetch] at h
      injection h with h1
      exact ⟨m, h1.symm⟩
  | ok p =>
      rw [hf] at h
      simp only [liftFetch] at h
      cases h

lemma collectScores_error {w : World} {imdb_id : String} {e : PyExc} :
    ∀ {ss : List Nat} {acc : List (List ℚ)},
      collectScores w imdb_id ss acc = .error e → ∃ m, e = .other m := by
  intro ss
  induction ss with
  | nil => intro acc h; cases h
  | cons s rest ih =>
      intro acc h
      simp only [collectScores] at h
      cases hr : get_episode_ratings w imdb_id s with
      | error e' =>
          rw [hr] at h
          injection h with h1
          exact h1 ▸ get_episode_ratings_error hr
      | ok ratings =>
          rw [hr] at h
          exact ih h

lemma collectScores_ok_mem {w : World} {imdb_id : String} :
    ∀ {ss : List Nat} {acc res : List (List ℚ)},
      collectScores w imdb_id ss acc = .ok res →
      (∀ l ∈ acc, 1 < l.length) → ∀ l ∈ res, 1 < l.length := by
  intro ss
  induction ss with
  | nil =>
      intro acc res h hacc
      injection h with h1
      exact h1 ▸ hacc
  | cons s rest ih =>
      intro acc res h hacc
      simp only [collectScores] at h
      cases hr : get_episode_ratings w imdb_id s with
      | error e' => rw [hr] at h; cases h
      | ok ratings =>
          rw [hr] at h
          refine ih h ?_
          by_cases hlen : ratings.length > 1
          · rw [if_pos hlen]
            intro l hl
            rcases List.mem_append.mp hl with hl | hl
            · exact hacc l hl
            · rw [List.mem_singleton.mp hl]
              exact hlen
          · rw [if_neg hlen]
            exact hacc

lemma runScores_ok {w : World} {title : String} {r : ScoresResult}
    (h : runScores w title = .ok r) :
    r.success = true ∧ ∃ ls, r.seasons = some ls ∧ ∀ l ∈ ls, 1 < l.length := by
  unfold runScores at h
  cases h1 : search_series w title with
  | error e => rw [h1] at h; cases h
  | ok pr =>
      obtain ⟨imdb_id, display_title⟩ := pr
      rw [h1] at h
      simp only [] at h
      cases h2 : get_season_numbers w imdb_id with
      | error e => rw [h2] at h; cases h
      | ok seasons =>
          rw [h2] at h
          simp only [] at h
          cases h3 : collectScores w imdb_id seasons [] with
          | error e => rw [h3] at h; cases h
          | ok all_scores =>
              rw [h3] at h
              injection h with h4
              subst h4
              exact ⟨rfl, all_scores, rfl, collectScores_ok_mem h3 (by simp)⟩

lemma runScores_valueError {w : World} {title m : String}
    (h : runScores w title = .error (.valueError m)) : m = notFoundMsg title := by
  unfold runScores at h
  cases h1 : search_series w title with
  | error e =>
      rw [h1] at h
      injection h with h2
      rcases search_series_error h1 with he | ⟨m', he⟩
      · injection he.symm.trans h2 with h3
        exact h3.symm
      · rw [he] at h2
        cases h2
  | ok pr =>
      obtain ⟨imdb_id, display_title⟩ := pr
      rw [h1] at h
      simp only [] at h
      cases h2 : get_season_numbers w imdb_id with
      | error e =>
          rw [h2] at h
          injection h with h3
          obtain ⟨m', he⟩ := get_season_numbers_error h2
          rw [he] at h3
          cases h3
      | ok seasons =>
          rw [h2] at h
          simp only [] at h
          cases h3 : collectScores w imdb_id seasons [] with
          | error e =>
              rw [h3] at h
              injection h with h4
              obtain ⟨m', he⟩ := collectScores_error h3
              rw [he] at h4
              cases h4
          | ok all_scores => rw [h3] at h; cases h

/-- C2: the aggregator's result is a tagged union: a resolution `NotFound`
yields `success := false` with the message passed through verbatim; every
other raised failure yields `success := false` with the fixed generic
message carrying no diagnostic detail; `get_scores` is a total function,
so no input propagates an exception instead of a structured result. -/
theorem aggregate_error_policy (w : World) (title : String) :
    (∀ r, runScores w title = .ok r → get_scores w title = r ∧ r.success = true) ∧
    (∀ m, runScores w title = .error (.valueError m) →
      m = notFoundMsg title ∧
      get_scores w title = ⟨false, none, none, none, some (notFoundMsg title)⟩) ∧
    (∀ m, runScores w title = .error (.other m) →
      get_scores w title =
        ⟨false, none, none, none, some "An error occurred while fetching data"⟩) := by
  refine ⟨?_, ?_, ?_⟩
  · intro r h
    constructor
    · unfold get_scores
      rw [h]
    · exact (runScores_ok h).1
  · intro m h
    have hm := runScores_valueError h
    refine ⟨hm, ?_⟩
    unfold get_scores
    rw [h, hm]
  · intro m h
    unfold get_scores
    rw [h]

/-- World in which every outbound fetch fails with a transport error. -/
def failWorld : World :=
  ⟨fun _ => .error "ConnectTimeout", fun _ => .error "ConnectTimeout",
    fun _ _ => .error "ConnectTimeout"⟩

/-- Witness for `aggregate_error_policy`: with every fetch failing, the
caller sees only the generic message. -/
theorem aggregate_error_policy_witness :
    get_scores failWorld "Breaking Bad" =
      ⟨false, none, none, none, some "An error occurred while fetching data"⟩ :=
  (aggregate_error_policy failWorld "Breaking Bad").2.2 "ConnectTimeout" rfl

/-- C3: on success, every per-season rating list in the result has length
strictly greater than 1. -/
theorem aggregate_seasons_min_length (w : World) (title : String)
    (h : (get_scores w title).success = true) :
    ∀ l ∈ (get_scores w title).seasons.getD [], 1 < l.length := by
  cases hr : runScores w title with
  | ok r =>
      obtain ⟨hs, ls, hls, hlen⟩ := runScores_ok hr
      have hg : get_scores w title = r := by
        unfold get_scores
        rw [hr]
      rw [hg, hls]
      simpa using hlen
  | error e =>
      exfalso
      cases e with
      | valueError m =>
          have : get_scores w title = ⟨false, none, none, none, some m⟩ := by
            unfold get_scores
            rw [hr]
          rw [this] at h
          cases h
      | other m =>
          have : get_scores w title =
              ⟨false, none, none, none, some "An error occurred while fetching data"⟩ := by
            unfold get_scores
            rw [hr]
          rw [this] at h
          cases h

/-- World serving one series with one season of two whole-number ratings. -/
def okWorld : World :=
  ⟨fun _ => .ok ⟨[⟨"/title/tt1/", "Show"⟩], []⟩,
    fun _ => .ok ⟨[⟨"?season=1", "1"⟩], []⟩,
    fun _ _ => .ok ⟨[], [⟨none, some "8"⟩, ⟨none, some "9"⟩]⟩⟩

/-- Witness for `aggregate_seasons_min_length`: a concrete successful run
whose single kept season has two ratings. -/
theorem aggregate_seasons_min_length_witness :
    (get_scores okWorld "x").success = true ∧ 1 < List.length [(8 : ℚ), 9] :=
  ⟨by decide, aggregate_seasons_min_length okWorld "x" (by decide) [8, 9] (by decide)⟩

/-! ### Helper lemmas about the rate limiter -/

lemma pruneWindow_sublist (now : ℚ) (l : List ℚ) : List.Sublist (pruneWindow now l) l :=
  List.filter_sublist l

lemma mem_pruneWindow {now t : ℚ} {l : List ℚ} :
    t ∈ pruneWindow now l ↔ t ∈ l ∧ now - RATE_LIMIT_WINDOW_SECONDS < t := by
  unfold pruneWindow
  rw [List.mem_filter]
  simp

lemma pruneWindow_eq_self {now : ℚ} {l : List ℚ}
    (h : ∀ t ∈ l, now - RATE_LIMIT_WINDOW_SECONDS < t) : pruneWindow now l = l :=
  List.filter_eq_self.mpr fun a ha => decide_eq_true (h a ha)

lemma rl_below_cap (st : RLState) (ip : String) (now : ℚ)
    (h : (pruneWindow now (st ip)).length < RATE_LIMIT_REQUESTS) :
    is_rate_limited st ip now =
      (false, fun k => if k = ip then pruneWindow now (st ip) ++ [now] else st k) := by
  unfold is_rate_limited
  simp only []
  rw [if_neg (by omega)]

lemma rl_reject (st : RLState) (ip : String) (now : ℚ)
    (h : RATE_LIMIT_REQUESTS ≤ (pruneWindow now (st ip)).length) :
    is_rate_limited st ip now =
      (true, fun k => if k = ip then pruneWindow now (st ip) else st k) := by
  unfold is_rate_limited
  simp only []
  rw [if_pos h]

lemma runCalls_append (st : RLState) (ip : String) (l₁ l₂ : List ℚ) :
    runCalls st ip (l₁ ++ l₂) =
      ((runCalls st ip l₁).1 ++ (runCalls (runCalls st ip l₁).2 ip l₂).1,
        (runCalls (runCalls st ip l₁).2 ip l₂).2) := by
  induction l₁ generalizing st with
  | nil => simp [runCalls]
  | cons t ts ih => simp [runCalls, ih]

lemma runCalls_below_cap (ip : String) :
    ∀ (ts : List ℚ) (st : RLState) (cur : List ℚ),
      st ip = cur →
      cur.length + ts.length ≤ RATE_LIMIT_REQUESTS →
      (∀ t ∈ ts, ∀ c ∈ cur, t - RATE_LIMIT_WINDOW_SECONDS < c) →
      (∀ t ∈ ts, ∀ t' ∈ ts, t - RATE_LIMIT_WINDOW_SECONDS < t') →
      (runCalls st ip ts).1 = List.replicate ts.length false ∧
      (runCalls st ip ts).2 ip = cur ++ ts := by
  intro ts
  induction ts with
  | nil =>
      intro st cur hcur _ _ _
      simp [runCalls, hcur]
  | cons t rest ih =>
      intro st cur hcur hlen hwin hpair
      have hprune : pruneWindow t (st ip) = cur := by
        rw [hcur]
        exact pruneWindow_eq_self fun c hc => hwin t (List.mem_cons_self t rest) c hc
      have hlt : (pruneWindow t (st ip)).length < RATE_LIMIT_REQUESTS := by
        rw [hprune]
        simp only [List.length_cons] at hlen
        omega
      have hstep := rl_below_cap st ip t hlt
      have hst' :
          (fun k => if k = ip then pruneWindow t (st ip) ++ [t] else st k) ip
            = cur ++ [t] := by
        simp [hprune]
      have hrec := ih (fun k => if k = ip then pruneWindow t (st ip) ++ [t] else st k)
        (cur ++ [t]) hst'
        (by simp only [List.length_append, List.length_singleton, List.length_nil,
              List.length_cons] at hlen ⊢; omega)
        (fun x hx c hc => by
          rcases List.mem_append.mp hc with hc | hc
          · exact hwin x (List.mem_cons_of_mem t hx) c hc
          · rw [List.mem_singleton.mp hc]
            exact hpair x (List.mem_cons_of_mem t hx) t (List.mem_cons_self t rest))
        (fun x hx y hy =>
          hpair x (List.mem_cons_of_mem t hx) y (List.mem_cons_of_mem t hy))
      simp only [runCalls, hstep]
      refine ⟨?_, ?_⟩
      · rw [hrec.1, List.length_cons, List.replicate_succ]
      · rw [hrec.2, List.append_assoc, List.singleton_append]

/-- C1: a call with fewer than 10 in-window timestamps is admitted and
records the current time; a call with 10 or more is rejected and records
nothing (the stored list stays a sublist of the old one, so no timestamp is
added); other client keys are untouched; from an empty table, any run of at
most 10 calls whose times pairwise lie within the 60-second window is fully
admitted, and an 11th call still inside the window is rejected.  Admission
after old entries fall out of the window is the first conjunct again, since
its count hypothesis is on the pruned list. -/
theorem rateLimiter_checkAndRecord (st : RLState) (ip ip2 : String) (now : ℚ)
    (ts : List ℚ) (t11 : ℚ) :
    ((pruneWindow now (st ip)).length < RATE_LIMIT_REQUESTS →
      (is_rate_limited st ip now).1 = false ∧
      (is_rate_limited st ip now).2 ip = pruneWindow now (st ip) ++ [now]) ∧
    (RATE_LIMIT_REQUESTS ≤ (pruneWindow now (st ip)).length →
      (is_rate_limited st ip now).1 = true ∧
      (is_rate_limited st ip now).2 ip = pruneWindow now (st ip) ∧
      List.Sublist ((is_rate_limited st ip now).2 ip) (st ip)) ∧
    (ip2 ≠ ip → (is_rate_limited st ip now).2 ip2 = st ip2) ∧
    (ts.length ≤ RATE_LIMIT_REQUESTS →
      (∀ t ∈ ts, ∀ t' ∈ ts, t - RATE_LIMIT_WINDOW_SECONDS < t') →
      (runCalls initRL ip ts).1 = List.replicate ts.length false ∧
      (runCalls initRL ip ts).2 ip = ts) ∧
    (ts.length = RATE_LIMIT_REQUESTS →
      (∀ t ∈ ts, ∀ t' ∈ ts, t - RATE_LIMIT_WINDOW_SECONDS < t') →
      (∀ t ∈ ts, t11 - RATE_LIMIT_WINDOW_SECONDS < t) →
      (runCalls initRL ip (ts ++ [t11])).1 =
        List.replicate RATE_LIMIT_REQUESTS false ++ [true]) := by
  refine ⟨?_, ?_, ?_, ?_, ?_⟩
  · intro h
    rw [rl_below_cap st ip now h]
    simp
  · intro h
    rw [rl_reject st ip now h]
    exact ⟨rfl, by simp, by simpa using pruneWindow_sublist now (st ip)⟩
  · intro h
    unfold is_rate_limited
    simp only []
    split <;> simp [h]
  · intro hlen hwin
    exact runCalls_below_cap ip ts initRL [] rfl (by simpa using hlen)
      (by simp) hwin
  · intro hlen hwin h11
    obtain ⟨hf, hst⟩ := runCalls_below_cap ip ts initRL [] rfl (by simp [hlen])
      (by simp) hwin
    rw [runCalls_append, hf]
    have hprune : pruneWindow t11 ((runCalls initRL ip ts).2 ip) = ts := by
      rw [hst]
      exact pruneWindow_eq_self h11
    have hreject := rl_reject (runCalls initRL ip ts).2 ip t11
      (by rw [hprune, hlen])
    simp only [runCalls, hreject, hlen]

/-- Witness for `rateLimiter_checkAndRecord`: the first call of a fresh
client is admitted and its timestamp recorded. -/
theorem rateLimiter_checkAndRecord_witness :
    (is_rate_limited initRL "203.0.113.9" 0).1 = false ∧
    (is_rate_limited initRL "203.0.113.9" 0).2 "203.0.113.9" = [0] := by
  have h := (rateLimiter_checkAndRecord initRL "203.0.113.9" "x" 0 [] 0).1 (by decide)
  exact ⟨h.1, h.2⟩

lemma rl_step_inv (st : RLState) (ip : String) (now : ℚ)
    (hlen : (st ip).length ≤ RATE_LIMIT_REQUESTS)
    (hsort : (st ip).Chain' (· ≤ ·))
    (hble : ∀ t ∈ st ip, t ≤ now) :
    ((is_rate_limited st ip now).2 ip).length ≤ RATE_LIMIT_REQUESTS ∧
    ((is_rate_limited st ip now).2 ip).Chain' (· ≤ ·) ∧
    (∀ t ∈ (is_rate_limited st ip now).2 ip,
      t ≤ now ∧ now - RATE_LIMIT_WINDOW_SECONDS < t) := by
  by_cases hc : RATE_LIMIT_REQUESTS ≤ (pruneWindow now (st ip)).length
  · have h2 : (is_rate_limited st ip now).2 ip = pruneWindow now (st ip) := by
      rw [rl_reject st ip now hc]
      simp
    rw [h2]
    refine ⟨le_trans (pruneWindow_sublist now (st ip)).length_le hlen,
      hsort.sublist (pruneWindow_sublist now (st ip)), ?_⟩
    intro t ht
    obtain ⟨htl, hwin⟩ := mem_pruneWindow.mp ht
    exact ⟨hble t htl, hwin⟩
  · have h2 : (is_rate_limited st ip now).2 ip = pruneWindow now (st ip) ++ [now] := by
      rw [rl_below_cap st ip now (by omega)]
      simp
    rw [h2]
    refine ⟨?_, ?_, ?_⟩
    · rw [List.length_append, List.length_singleton]
      omega
    · rw [List.chain'_append]
      refine ⟨hsort.sublist (pruneWindow_sublist now (st ip)),
        List.chain'_singleton now, ?_⟩
      intro x hx y hy
      obtain ⟨hne, rfl⟩ := List.mem_getLast?_eq_getLast hx
      have hxm : List.getLast (pruneWindow now (st ip)) hne ∈ pruneWindow now (st ip) :=
        List.getLast_mem hne
      have hy' : y = now := by
        have := hy
        simp only [List.head?_cons, Option.mem_def, Option.some.injEq] at this
        exact this.symm
      rw [hy']
      exact hble _ ((pruneWindow_sublist now (st ip)).subset hxm)
    · intro t ht
      rcases List.mem_append.mp ht with ht | ht
      · obtain ⟨htl, hwin⟩ := mem_pruneWindow.mp ht
        exact ⟨hble t htl, hwin⟩
      · rw [List.mem_singleton.mp ht]
        refine ⟨le_refl now, ?_⟩
        have h60 : (0 : ℚ) < RATE_LIMIT_WINDOW_SECONDS := by norm_num [RATE_LIMIT_WINDOW_SECONDS]
        linarith

lemma rl_run_inv (ip : String) :
    ∀ (ts : List ℚ) (st : RLState) (c : ℚ),
      (st ip).length ≤ RATE_LIMIT_REQUESTS →
      (st ip).Chain' (· ≤ ·) →
      (∀ t ∈ st ip, t ≤ c ∧ c - RATE_LIMIT_WINDOW_SECONDS < t) →
      List.Chain' (· ≤ ·) (c :: ts) →
      ((runCalls st ip ts).2 ip).length ≤ RATE_LIMIT_REQUESTS ∧
      ((runCalls st ip ts).2 ip).Chain' (· ≤ ·) ∧
      (∀ t ∈ (runCalls st ip ts).2 ip,
        t ≤ (c :: ts).getLast (List.cons_ne_nil c ts) ∧
        (c :: ts).getLast (List.cons_ne_nil c ts) - RATE_LIMIT_WINDOW_SECONDS < t) := by
  intro ts
  induction ts with
  | nil =>
      intro st c h1 h2 h3 _
      exact ⟨h1, h2, by simpa using h3⟩
  | cons t rest ih =>
      intro st c h1 h2 h3 hch
      have hct : c ≤ t := (List.chain'_cons.mp hch).1
      have hble : ∀ x ∈ st ip, x ≤ t := fun x hx => le_trans (h3 x hx).1 hct
      have hstep := rl_step_inv st ip t h1 h2 hble
      have hrec := ih ((is_rate_limited st ip t).2) t hstep.1 hstep.2.1 hstep.2.2
        (List.chain'_cons.mp hch).2
      simp only [runCalls]
      rw [List.getLast_cons (List.cons_ne_nil t rest)]
      exact hrec

/-- C9: after any nonempty monotone sequence of calls for a client, the
stored timestamp list holds at most 10 entries, every entry is strictly
newer than the final call time minus the 60-second window, and the entries
are in non-decreasing order. -/
theorem rateLimiter_state_invariant (ip : String) (t0 : ℚ) (ts : List ℚ)
    (hmono : List.Chain' (· ≤ ·) (t0 :: ts)) :
    ((runCalls initRL ip (t0 :: ts)).2 ip).length ≤ RATE_LIMIT_REQUESTS ∧
    ((runCalls initRL ip (t0 :: ts)).2 ip).Chain' (· ≤ ·) ∧
    (∀ t ∈ (runCalls initRL ip (t0 :: ts)).2 ip,
      (t0 :: ts).getLast (List.cons_ne_nil t0 ts) - RATE_LIMIT_WINDOW_SECONDS < t) := by
  have h := rl_run_inv ip (t0 :: ts) initRL t0 (by simp [initRL]) (by simp [initRL])
    (by simp [initRL]) (List.chain'_cons.mpr ⟨le_refl t0, hmono⟩)
  rw [List.getLast_cons (List.cons_ne_nil t0 ts)] at h
  exact ⟨h.1, h.2.1, fun t ht => (h.2.2 t ht).2⟩

/-- Witness for `rateLimiter_state_invariant` at a single call. -/
theorem rateLimiter_state_invariant_witness :
    ((runCalls initRL "a" [0]).2 "a").length ≤ RATE_LIMIT_REQUESTS ∧
    ((runCalls initRL "a" [0]).2 "a").Chain' (· ≤ ·) := by
  have h := rateLimiter_state_invariant "a" 0 [] (by simp)
  exact ⟨h.1, h.2.1⟩

/-- C10: when the rate-limit check admits, `do_GET` has already recorded
the client's timestamp before the `title` parameter is examined: the
updated table entry carries the appended current time for every `title`,
and a request with empty (missing) `title` gets the missing-parameter body
without the aggregator being consulted (the response is independent of the
fetch world), yet still consumes the slot. -/
theorem do_GET_records_before_title (st : RLState) (ip : String) (now : ℚ)
    (title : String) (w w2 : World)
    (h : (is_rate_limited st ip now).1 = false) :
    (do_GET st ip now title w).2 ip = pruneWindow now (st ip) ++ [now] ∧
    (do_GET st ip now "" w).1 = .apiResponse missingTitleBody false ∧
    do_GET st ip now "" w = do_GET st ip now "" w2 := by
  have hlt : (pruneWindow now (st ip)).length < RATE_LIMIT_REQUESTS := by
    by_contra hc
    rw [rl_reject st ip now (by omega)] at h
    cases h
  have hstep := rl_below_cap st ip now hlt
  refine ⟨?_, ?_, ?_⟩
  · unfold do_GET
    rw [hstep]
    by_cases ht : title = "" <;> simp [ht]
  · unfold do_GET
    rw [hstep]
    simp
  · unfold do_GET
    rw [hstep]
    simp

/-- Witness for `do_GET_records_before_title`: a first request with a
missing title still records its timestamp. -/
theorem do_GET_records_before_title_witness :
    (do_GET initRL "198.51.100.7" 0 "" failWorld).2 "198.51.100.7" = [0] ∧
    (do_GET initRL "198.51.100.7" 0 "" failWorld).1 =
      .apiResponse missingTitleBody false := by
  have h := do_GET_records_before_title initRL "198.51.100.7" 0 "" failWorld okWorld
    (by decide)
  exact ⟨h.1, h.2.1⟩
